import Mathlib

/-!
Verification development for the voice-ordering gateway
(`audioBridge.js`, `orderManager.js`, `supabaseClient.js`, `geminiSession.js`,
`twilioStream.js`, `server.js`).

Shallow embedding conventions:
* machine integers become `Nat`/`Int` (JavaScript bitwise operators act on
  32-bit two's-complement values; every quantity handled here is far below
  2^31 in magnitude, so plain integer arithmetic is exact);
* JavaScript numbers used for money become `ℚ` (for the concrete inputs in
  the claims the float results agree with exact rational arithmetic, since
  no intermediate value comes near a rounding boundary);
* external effects (Supabase responses, WebSocket events, Gemini server
  messages) become explicit parameters or event lists;
* fallible code returns `Option`/`Except`.
-/

namespace AudioBridge

/-- Mu-law decode of one byte, from `buildDecodeTable` in `audioBridge.js`:
`byte = ~i & 0xFF`, sign bit `0x80`, 3-bit exponent, 4-bit mantissa, bias 33:
`sample = ((mantissa << 1) + 33) << (exponent + 2); sample -= 33`,
negated when the sign bit is set.  For `i < 256`, `~i & 0xFF = i ^^^ 0xFF`. -/
def MULAW_DECODE (i : Nat) : Int :=
  let byte := i ^^^ 0xFF
  let sign := byte &&& 0x80
  let exponent := (byte >>> 4) &&& 0x07
  let mantissa := byte &&& 0x0F
  let sample : Int := (((((mantissa <<< 1) + 33) <<< (exponent + 2)) : Nat) : Int) - 33
  if sign ≠ 0 then -sample else sample

/-- Linear-interpolation 2x upsampler from `upsample8kTo16k` in
`audioBridge.js`: `out[2i] = in[i]`, `out[2i+1] = (in[i] + next) >> 1` where
`next` is `in[i+1]`, or `in[i]` for the final sample (the sample is held).
JavaScript `>> 1` on the 32-bit sum is the floor of division by 2, i.e.
`Int.fdiv _ 2` (the sum of two 16-bit samples cannot overflow 32 bits). -/
def upsample8kTo16k : List Int → List Int
  | [] => []
  | [a] => [a, Int.fdiv (a + a) 2]
  | a :: b :: rest => a :: Int.fdiv (a + b) 2 :: upsample8kTo16k (b :: rest)

/-- Embedding of `twilioAudioToGemini` in `audioBridge.js`, with base64 framing elided:
decode each µ-law byte, then upsample 8 kHz → 16 kHz. -/
def twilioAudioToGemini (mulawBytes : List Nat) : List Int :=
  upsample8kTo16k (mulawBytes.map MULAW_DECODE)

/-- The exponent-search loop of `pcm16ToMulaw`:
`exponent = 7; expMask = 0x4000; while (exponent > 0 && (sample & expMask) === 0)
{ exponent--; expMask >>= 1; }`. -/
def findExpAux : Nat → Nat → Nat → Nat
  | 0, _, _ => 0
  | e + 1, mask, mag => if mag &&& mask ≠ 0 then e + 1 else findExpAux e (mask >>> 1) mag

/-- Mu-law encode of one sample, from `pcm16ToMulaw` in `audioBridge.js`:
capture sign; treat `-32768` as `32767` before negation; add bias 33 and
clamp at `32767`; find the exponent; extract the mantissa; combine and
bit-invert (`~x & 0xFF = x ^^^ 0xFF` for `x < 256`). -/
def pcm16ToMulawSample (s : Int) : Nat :=
  let sign : Nat := if s < 0 then 0x80 else 0x00
  let mag : Int := if s < 0 then (if s = -32768 then 32767 else -s) else s
  let mag2 : Nat := min (mag.toNat + 33) 32767
  let exponent := findExpAux 7 0x4000 mag2
  let mantissa := (mag2 >>> (exponent + 3)) &&& 0x0F
  (sign ||| (exponent <<< 4) ||| mantissa) ^^^ 0xFF

theorem upsample_length (l : List Int) :
    (upsample8kTo16k l).length = 2 * l.length := by
  induction l with
  | nil => rfl
  | cons a t ih =>
    cases t with
    | nil => rfl
    | cons b r =>
      simp only [upsample8kTo16k, List.length_cons] at ih ⊢
      omega

theorem upsample_even (l : List Int) (i : Nat) (h : i < l.length) :
    (upsample8kTo16k l).getD (2 * i) 0 = l.getD i 0 := by
  induction l generalizing i with
  | nil => simp at h
  | cons a t ih =>
    cases t with
    | nil =>
      have : i = 0 := by simpa using Nat.lt_one_iff.mp (by simpa using h)
      subst this; rfl
    | cons b r =>
      cases i with
      | zero => rfl
      | succ j =>
        have h2 : 2 * (j + 1) = 2 * j + 1 + 1 := by omega
        rw [h2]
        show (upsample8kTo16k (b :: r)).getD (2 * j) 0 = (b :: r).getD j 0
        exact ih j (by simpa using h)

theorem upsample_odd (l : List Int) (i : Nat) (h : i + 1 < l.length) :
    (upsample8kTo16k l).getD (2 * i + 1) 0 =
      Int.fdiv (l.getD i 0 + l.getD (i + 1) 0) 2 := by
  induction l generalizing i with
  | nil => simp at h
  | cons a t ih =>
    cases t with
    | nil => simp at h
    | cons b r =>
      cases i with
      | zero => rfl
      | succ j =>
        have h2 : 2 * (j + 1) + 1 = 2 * j + 1 + 1 + 1 := by omega
        rw [h2]
        show (upsample8kTo16k (b :: r)).getD (2 * j + 1) 0 =
          Int.fdiv ((b :: r).getD j 0 + (b :: r).getD (j + 1) 0) 2
        exact ih j (by simpa using h)

theorem fdiv_double (a : Int) : Int.fdiv (a + a) 2 = a := by
  have h : a + a = 2 * a := by ring
  rw [h, Int.mul_fdiv_cancel_left a (by norm_num)]

theorem upsample_last (l : List Int) (h : 0 < l.length) :
    (upsample8kTo16k l).getD (2 * l.length - 1) 0 = l.getD (l.length - 1) 0 := by
  induction l with
  | nil => simp at h
  | cons a t ih =>
    cases t with
    | nil =>
      show Int.fdiv (a + a) 2 = a
      exact fdiv_double a
    | cons b r =>
      have h2 : 2 * (a :: b :: r).length - 1 = 2 * (b :: r).length - 1 + 1 + 1 := by
        simp [List.length_cons]; omega
      rw [h2]
      show (upsample8kTo16k (b :: r)).getD (2 * (b :: r).length - 1) 0 =
        (a :: b :: r).getD ((a :: b :: r).length - 1) 0
      rw [ih (by simp)]
      simp [List.length_cons]

theorem findExpAux_le (e mask mag : Nat) : findExpAux e mask mag ≤ e := by
  induction e generalizing mask with
  | zero => simp [findExpAux]
  | succ k ih =>
    simp only [findExpAux]
    split
    · exact Nat.le_refl _
    · exact Nat.le_succ_of_le (ih (mask >>> 1))

theorem encode_lt_256 (s : Int) : pcm16ToMulawSample s < 256 := by
  have h256 : (256 : Nat) = 2 ^ 8 := by norm_num
  unfold pcm16ToMulawSample
  rw [h256]
  apply Nat.xor_lt_two_pow _ (by norm_num)
  apply Nat.or_lt_two_pow _ (by
    have := Nat.and_le_right (n := (min ((if s < 0 then
        (if s = -32768 then (32767 : Int) else -s) else s).toNat + 33) 32767) >>>
        (findExpAux 7 0x4000 (min ((if s < 0 then
        (if s = -32768 then (32767 : Int) else -s) else s).toNat + 33) 32767) + 3)) (m := 0x0F)
    omega)
  apply Nat.or_lt_two_pow (by split <;> norm_num)
  have hexp := findExpAux_le 7 0x4000 (min ((if s < 0 then
      (if s = -32768 then (32767 : Int) else -s) else s).toNat + 33) 32767)
  have : findExpAux 7 0x4000 (min ((if s < 0 then
      (if s = -32768 then (32767 : Int) else -s) else s).toNat + 33) 32767) <<< 4 ≤ 7 <<< 4 := by
    simp only [Nat.shiftLeft_eq]
    exact Nat.mul_le_mul_right _ hexp
  calc findExpAux 7 0x4000 (min ((if s < 0 then
      (if s = -32768 then (32767 : Int) else -s) else s).toNat + 33) 32767) <<< 4
      ≤ 7 <<< 4 := this
    _ < 2 ^ 8 := by decide

end AudioBridge

/-- C8: for every non-empty µ-law input frame of `n` bytes,
`twilioAudioToGemini` (the `mediaToModel` direction) outputs exactly `2n`
PCM16 samples: writing `d` for the decoded input samples, `out[2i] = d[i]`
for every `i < n`, `out[2i+1]` is the integer (floor) mean of `d[i]` and
`d[i+1]` for every `i < n-1`, and the final odd sample `out[2n-1] = d[n-1]`
(the final sample is held). -/
theorem C8_mediaToModel_upsampling (bytes : List Nat) :
    (AudioBridge.twilioAudioToGemini bytes).length = 2 * bytes.length ∧
    (∀ i, i < bytes.length →
      (AudioBridge.twilioAudioToGemini bytes).getD (2 * i) 0 =
        (bytes.map AudioBridge.MULAW_DECODE).getD i 0) ∧
    (∀ i, i + 1 < bytes.length →
      (AudioBridge.twilioAudioToGemini bytes).getD (2 * i + 1) 0 =
        Int.fdiv ((bytes.map AudioBridge.MULAW_DECODE).getD i 0 +
          (bytes.map AudioBridge.MULAW_DECODE).getD (i + 1) 0) 2) ∧
    (0 < bytes.length →
      (AudioBridge.twilioAudioToGemini bytes).getD (2 * bytes.length - 1) 0 =
        (bytes.map AudioBridge.MULAW_DECODE).getD (bytes.length - 1) 0) := by
  have hlen : (bytes.map AudioBridge.MULAW_DECODE).length = bytes.length :=
    List.length_map _ _
  refine ⟨?_, ?_, ?_, ?_⟩
  · rw [AudioBridge.twilioAudioToGemini, AudioBridge.upsample_length, hlen]
  · intro i hi
    exact AudioBridge.upsample_even _ i (by rw [hlen]; exact hi)
  · intro i hi
    exact AudioBridge.upsample_odd _ i (by rw [hlen]; exact hi)
  · intro hpos
    have := AudioBridge.upsample_last (bytes.map AudioBridge.MULAW_DECODE)
      (by rw [hlen]; exact hpos)
    rw [hlen] at this
    exact this

/-- Witness for C8 at the concrete two-byte frame `[0x00, 0xFF]`. -/
theorem C8_mediaToModel_upsampling_witness :
    (AudioBridge.twilioAudioToGemini [0, 255]).length = 2 * 2 ∧
    (AudioBridge.twilioAudioToGemini [0, 255]).getD 0 0 =
      ([0, 255].map AudioBridge.MULAW_DECODE).getD 0 0 ∧
    (AudioBridge.twilioAudioToGemini [0, 255]).getD 1 0 =
      Int.fdiv (([0, 255].map AudioBridge.MULAW_DECODE).getD 0 0 +
        ([0, 255].map AudioBridge.MULAW_DECODE).getD 1 0) 2 ∧
    (AudioBridge.twilioAudioToGemini [0, 255]).getD 3 0 =
      ([0, 255].map AudioBridge.MULAW_DECODE).getD 1 0 := by
  obtain ⟨h1, h2, h3, h4⟩ := C8_mediaToModel_upsampling [0, 255]
  exact ⟨by simpa using h1, h2 0 (by decide), h3 0 (by decide), by simpa using h4 (by decide)⟩

/-- C9: the µ-law encoder maps `-32768` (INT16_MIN) to the valid
near-maximum-magnitude µ-law code with no overflow: it encodes to the same
byte as the maximum magnitude `-32767` (the magnitude is treated as `32767`
before negation and `magnitude + 33` is clamped at `32767`), the assembled
byte is bit-inverted giving `0x00`, every encoder output is a well-defined
byte `< 256`, and the code decodes back to the near-maximum magnitude
`-32223`. -/
theorem C9_mulaw_encode_int16min :
    AudioBridge.pcm16ToMulawSample (-32768) = 0x00 ∧
    AudioBridge.pcm16ToMulawSample (-32768) = AudioBridge.pcm16ToMulawSample (-32767) ∧
    (∀ s : Int, AudioBridge.pcm16ToMulawSample s < 256) ∧
    AudioBridge.MULAW_DECODE (AudioBridge.pcm16ToMulawSample (-32768)) = -32223 := by
  exact ⟨by decide, by decide, AudioBridge.encode_lt_256, by decide⟩

namespace OrderManager

/-- Session-local cart entry, from `orderManager.js`:
`{ itemName, quantity, price, notes }`. -/
structure CartItem where
  itemName : String
  quantity : ℚ
  price    : ℚ
  notes    : String
deriving Repr, DecidableEq

/-- The authoritative static price map (`PRICE_MAP` in `orderManager.js`,
Red Team #12).  Keys are exact menu names; values are unit prices in
dollars. -/
def PRICE_MAP : List (String × ℚ) := [
  ("Rasam", 6.99), ("Rava Kichadi", 8.75), ("Thatte Idly", 7.49),
  ("Idly (2)", 8.49), ("Idly (1) & Vada (1)", 8.99), ("Rasa Vada (2)", 8.49),
  ("Sambar Vada (2)", 8.99), ("Medhu Vada (2)", 9.49), ("Masala Vada (3)", 8.49),
  ("Curd Vada (2)", 10.49), ("Mysore Bonda (3)", 8.99),
  ("Ghee Podi Thatte Idly", 9.49), ("14 Pcs Mini Ghee Sambar Idly", 9.99),
  ("Ghee Pongal", 10.49), ("Kaima Idly", 12.99),
  ("Chilli Bajji (2)", 8.49), ("Onion Bajji (3)", 7.99),
  ("Plantain Bajji (2)", 7.99), ("Vegetable Bonda (3)", 7.99),
  ("Plain Dosa", 9.99), ("Onion Dosa", 9.99), ("Masala Dosa", 11.49),
  ("Onion Masala Dosa", 10.99), ("Onion Chilli Dosa", 10.49),
  ("Onion Chilli Masala Dosa", 10.99), ("Kara Dosa", 12.99),
  ("Kesari Dosa", 11.49), ("Milagaipodi Dosa", 11.99),
  ("Milagaipodi Masala Dosa", 12.49), ("Mysore Dosa", 12.49),
  ("Mysore Masala Dosa", 12.99), ("Mysore Onion Dosa", 13.49),
  ("Mysore Onion Masala Dosa", 13.99), ("Rava Dosa", 10.49),
  ("Rava Masala Dosa", 10.99), ("Onion Rava Dosa", 11.49),
  ("Onion Rava Masala Dosa", 13.49), ("Onion Chilli Rava Dosa", 11.99),
  ("Onion Chilli Rava Masala Dosa", 13.49), ("Ghee Rava Dosa", 12.99),
  ("Ghee Rava Masala Dosa", 13.49), ("Ghee Onion Rava Dosa", 13.49),
  ("Ghee Onion Rava Masala Dosa", 13.99), ("Dry Fruit Rava Dosa", 12.99),
  ("Dry Fruit Rava Masala Dosa", 13.49), ("Cheese Dosa", 12.49),
  ("Cheese Masala Dosa", 12.99), ("Cheese Kara Dosa", 12.99),
  ("Cheese Podi Masala Dosa", 13.49), ("Vegetable Dosa", 11.99),
  ("Paper Roast", 11.49), ("Paper Roast Masala", 11.99), ("Kal Dosa", 14.49),
  ("Pesarattu Dosa", 13.99), ("Pesarat Upma", 14.99),
  ("Saravana Special Dosa", 13.99), ("Benne Masala Dosa", 12.99),
  ("Benne Dosa", 16.75),
  ("Onion Podi Dosa", 12.99), ("Podi Kara Dosa", 11.99),
  ("Onion Rava Kara Masala Dosa", 13.99), ("Spring Dosa", 13.99),
  ("Pav Bhaji Dosa", 13.99), ("Sandwich Dosa", 15.99),
  ("Chocolate Dosa", 12.49), ("Chettinad Spicy Masala Cheese Dosa", 14.99),
  ("Mixed Vegetable Cheese Dosa", 15.49), ("Palak Paneer Cheese Dosa", 15.49),
  ("Paneer Butter Cheese Masala Dosa", 15.49),
  ("Millet Plain Dosa", 10.75), ("Millet Masala Dosa", 11.49),
  ("Millet Onion Dosa", 10.99), ("Millet Onion Masala Dosa", 11.99),
  ("Millet Idly", 7.99), ("Millet Pongal", 10.75), ("Millet Kichidi", 10.75),
  ("Millet Bisbilebath", 11.49), ("Millet Bagalabath", 11.49),
  ("Millet Vegetable Pulao", 13.49), ("Millet Chapathi", 11.25),
  ("Millet Poori", 11.75), ("Millet Combo 1", 14.49),
  ("Millet Extra Poori", 4.25),
  ("Plain Uthappam", 10.99), ("Onion Uthappam", 11.99),
  ("Onion Chilli Uthappam", 12.49), ("Onion & Peas Uthappam", 12.99),
  ("Tomato Uthappam", 11.99), ("Tomato & Onion Uthappam", 12.49),
  ("Tomato & Peas Uthappam", 10.99), ("Tomato Onion Chilli Uthappam", 12.99),
  ("Tomato Peas Onion Uthappam", 12.99), ("Peas Uthappam", 11.99),
  ("Peas Chilli Uthappam", 12.49), ("Masala Podi Uthappam", 11.99),
  ("Ghee Podi Uthappam", 12.49), ("Cheese Uthappam", 11.99),
  ("Chilli Cheese Uthappam", 12.49),
  ("Adai Avial", 14.49), ("Appam", 12.49), ("Idiappam", 12.49),
  ("Channa Batura", 14.49),
  ("Bagalabath", 10.49), ("Bisibelabath", 10.49), ("Executive Meal", 14.49),
  ("Rice of the Day", 10.99),
  ("Jeera Pulao", 12.99), ("Peas Pulao", 13.49), ("Mushroom Pulao", 13.49),
  ("Vegetable Pulao", 13.49), ("Cashew Nut Pulao", 14.99),
  ("Paneer Pulao", 13.99), ("Vegetable Biryani", 13.49),
  ("Mushroom Biryani", 14.99), ("Paneer Biryani", 15.49),
  ("Mushroom Mutter", 16.99),
  ("Veg Fried Rice", 13.99), ("Schezwan Veg Fried Rice", 14.99),
  ("Schezwan Paneer Fried Rice", 16.99), ("Paneer Veg Fried Rice", 15.99),
  ("Channa Masala", 13.49), ("Avial", 11.49), ("Mushroom Rogan Josh", 12.49),
  ("Vegetable Butter Masala", 14.49), ("Veg Jalfrezi", 14.49),
  ("Palak Paneer", 14.99), ("Aloo Gobi Masala", 16.49), ("Aloo Mutter", 16.49),
  ("Aloo Pepper Fry", 16.49), ("Gobi Masala", 16.49), ("Gobi Mutter", 16.49),
  ("Green Peas Masala", 16.49), ("Mutter Paneer", 16.99),
  ("Kadai Paneer", 17.49), ("Paneer Butter Masala", 17.99),
  ("Gobi 65", 13.49), ("Gobi Manchurian", 13.49), ("Chilli Mushroom", 13.49),
  ("Mushroom Manchurian", 13.99), ("Veg Manchurian", 13.99),
  ("Chilly Paneer", 15.49), ("Paneer Manchurian", 15.99),
  ("Combo 1", 13.99), ("Combo 2", 13.99), ("Combo 3", 13.99),
  ("Combo 4", 12.49),
  ("Chapathi (2)", 9.99), ("Poori (2)", 10.49), ("Parotta (2)", 11.99),
  ("Plain Naan", 4.99), ("Butter Naan", 4.99), ("Garlic Naan", 4.99),
  ("Extra Chapathi", 3.99), ("Extra Poori", 3.99), ("Extra Parotta", 4.49),
  ("Rice", 2.99), ("Extra Ghee", 1.99), ("Milagaipodi", 2.49),
  ("Sweet Pongal", 6.49), ("Gulab Jamun", 6.49), ("Rasamalai", 6.49),
  ("Badam Kheer", 6.49), ("Desert of the Day", 7.49), ("Rava Kesari", 7.99),
  ("Badam Halwa", 9.49),
  ("Soft Drinks", 2.00), ("Special Milk Tea", 3.99), ("Butter Milk", 4.99),
  ("Madras Filter Coffee", 4.99), ("Mango Juice", 5.49), ("Lassi", 5.49),
  ("Mango Lassi", 6.49)]

/-- Arguments of a `manageOrder` tool call as destructured by
`handleManageOrder`: `{ action, itemName, quantity, notes }` plus
`args.price` (the model-supplied fallback price). -/
structure ManageOrderArgs where
  action   : String
  itemName : String
  quantity : ℚ
  price    : ℚ
  notes    : String
deriving Repr, DecidableEq

/-- The `add` branch of `handleManageOrder`: `cart.find(i => i.itemName ===
itemName)` locates the first entry with the same name and mutates it in
place (`quantity`, `price`, and `notes = notes || existing.notes`);
otherwise `cart.push({itemName, quantity, price, notes: notes || ''})`. -/
def cartAdd (cart : List CartItem) (itemName : String) (quantity price : ℚ)
    (notes : String) : List CartItem :=
  match cart with
  | [] => [⟨itemName, quantity, price, notes⟩]
  | c :: rest =>
    if c.itemName = itemName then
      ⟨c.itemName, quantity, price, if notes = "" then c.notes else notes⟩ :: rest
    else
      c :: cartAdd rest itemName quantity price notes

/-- Embedding of `handleManageOrder(callSid, args)` from `orderManager.js` (Red Team #12
version).  The session is `some cart` when `sessions.get(callSid)` finds
one.  Output: updated session, the returned `result` string, and whether a
`price_map_miss` warning was logged. -/
def handleManageOrder (session : Option (List CartItem)) (args : ManageOrderArgs) :
    Option (List CartItem) × String × Bool :=
  match session with
  | none => (none, "Error: session not found", false)
  | some cart =>
    let correctPrice := (PRICE_MAP.lookup args.itemName).getD args.price
    let priceMapMiss := (PRICE_MAP.lookup args.itemName).isNone
    let cart' :=
      if args.action = "add" then
        cartAdd cart args.itemName args.quantity correctPrice args.notes
      else if args.action = "remove" then
        cart.filter (fun i => i.itemName != args.itemName)
      else cart
    (some cart', "Cart updated successfully.", priceMapMiss)

/-- Texas sales tax rate (`TAX_RATE` / `TX_TAX_RATE` = 0.0825). -/
def TAX_RATE : ℚ := 0.0825

/-- JavaScript `Math.round` on the (here always in-range, positive)
argument: half-up rounding, `⌊x + 1/2⌋`. -/
def jsRound (x : ℚ) : ℤ := ⌊x + 1 / 2⌋

/-- Subtotal: `cart.reduce((s, i) => s + i.price * i.quantity, 0)`. -/
def cartSubtotal (cart : List CartItem) : ℚ :=
  cart.foldl (fun s i => s + i.price * i.quantity) 0

/-- Embedding of `calcOrderTotal` (`supabaseClient.js`) and the inline step 2 of
`handleCompleteOrder`: `Math.round(subtotal * (1 + TAX_RATE) * 100) / 100`. -/
def calcOrderTotal (cart : List CartItem) : ℚ :=
  ((jsRound (cartSubtotal cart * (1 + TAX_RATE) * 100) : ℤ) : ℚ) / 100

end OrderManager

namespace OrderManager

/-- Outcomes of the three external Supabase operations within one attempt of
`handleCompleteOrder` (the Red Team #14 retry version in `orderManager.js`):
`custOk` — the customer upsert returned a row (no `custErr`);
`orderId` — `some id` when the order insert succeeded, `none` on `orderErr`;
`itemsOk` — the `order_items` batch insert reported no `itemsErr`. -/
structure AttemptEnv where
  custOk  : Bool
  orderId : Option String
  itemsOk : Bool
deriving Repr, DecidableEq

/-- Database rows actually written during one attempt. -/
structure AttemptEffects where
  customerUpserted : Bool
  orderInserted    : Bool
  itemsInserted    : Bool
deriving Repr, DecidableEq

/-- Order number composition `'SB-IRV-' + order.id.substring(0, 6).toUpperCase()` (step 5). -/
def orderNumberOf (id : String) : String :=
  "SB-IRV-" ++ String.mk ((id.data.take 6).map Char.toUpper)

/-- Value produced by a successful attempt body (`{ order, orderNumber,
total }`). -/
structure AttemptSuccess where
  orderId     : String
  orderNumber : String
  total       : ℚ
deriving Repr, DecidableEq

/-- One attempt body of `handleCompleteOrder`:
1. customer upsert — `custErr` is only logged (`console.error`), execution
   continues with `customer?.id || null`;
2. totals;
3. order insert — `orderErr` throws (`Order insert failed`), so the attempt
   is retried and nothing later in the body runs;
4. `order_items` batch insert — `itemsErr` is only logged;
5. order number.
Returns the rows written plus `none` exactly when the attempt threw. -/
def completeOrderAttempt (cart : List CartItem) (env : AttemptEnv) :
    AttemptEffects × Option AttemptSuccess :=
  match env.orderId with
  | none => (⟨env.custOk, false, false⟩, none)
  | some oid =>
      (⟨env.custOk, true, env.itemsOk⟩,
       some ⟨oid, orderNumberOf oid, calcOrderTotal cart⟩)

/-- Retry helper `withRetry` (Red Team #14): run attempts in order until one returns
without throwing; collect the effects of every attempt that ran. -/
def withRetry (cart : List CartItem) : List AttemptEnv →
    List AttemptEffects × Option AttemptSuccess
  | [] => ([], none)
  | e :: es =>
    match completeOrderAttempt cart e with
    | (fx, some r) => ([fx], some r)
    | (fx, none) =>
        let rest := withRetry cart es
        (fx :: rest.1, rest.2)

/-- The result object returned by `handleCompleteOrder`. -/
structure CompleteOrderResult where
  result      : String
  orderId     : Option String
  orderNumber : Option String
  total       : Option ℚ
deriving Repr, DecidableEq

/-- Apology returned when all retry attempts failed. -/
def RETRY_APOLOGY : String :=
  "I am sorry, there is a brief system issue. Your order has been noted. " ++
  "Please call us back in 2 minutes and we will get it placed immediately."

/-- Embedding of `handleCompleteOrder(callSid, args)` from `orderManager.js` (retry
version): session lookup, empty-cart early return, the retry loop over the
attempt body, cart clear only after the final successful attempt, and the
user-safe apology with `orderId: null` on exhaustion.  The attempt
environments stand for the Supabase responses the three calls would
observe on each attempt. -/
def handleCompleteOrder (session : Option (List CartItem))
    (envs : List AttemptEnv) :
    Option (List CartItem) × List AttemptEffects × CompleteOrderResult :=
  match session with
  | none => (none, [], ⟨"Error: session not found", none, none, none⟩)
  | some cart =>
    if cart.length = 0 then
      (some cart, [], ⟨"Error: cart is empty", none, none, none⟩)
    else
      match withRetry cart envs with
      | (fxs, some r) =>
          (some [], fxs,
           ⟨"Order confirmed successfully. Order number is " ++ r.orderNumber ++ ".",
            some r.orderId, some r.orderNumber, some r.total⟩)
      | (fxs, none) =>
          (some cart, fxs, ⟨RETRY_APOLOGY, none, none, none⟩)

end OrderManager

namespace OrderManager

/-- Every cart item whose name is in the price map carries the map price. -/
def priceInvariant (cart : List CartItem) : Prop :=
  ∀ c ∈ cart, ∀ p, PRICE_MAP.lookup c.itemName = some p → c.price = p

/-- Apply a sequence of `manageOrder` calls to a session cart. -/
def applyOps (cart : List CartItem) (ops : List ManageOrderArgs) : List CartItem :=
  ops.foldl (fun c a => ((handleManageOrder (some c) a).1).getD c) cart

theorem cartAdd_mem (cart : List CartItem) (name : String) (qty price : ℚ)
    (notes : String) :
    ∀ c' ∈ cartAdd cart name qty price notes,
      c' ∈ cart ∨ (c'.itemName = name ∧ c'.price = price) := by
  induction cart with
  | nil =>
    intro c' hc'
    simp [cartAdd] at hc'
    subst hc'
    exact Or.inr ⟨rfl, rfl⟩
  | cons c rest ih =>
    intro c' hc'
    by_cases h : c.itemName = name
    · simp only [cartAdd, if_pos h] at hc'
      rcases List.mem_cons.mp hc' with h1 | h1
      · subst h1; exact Or.inr ⟨h, rfl⟩
      · exact Or.inl (List.mem_cons_of_mem _ h1)
    · simp only [cartAdd, if_neg h] at hc'
      rcases List.mem_cons.mp hc' with h1 | h1
      · subst h1; exact Or.inl (List.mem_cons_self _ _)
      · rcases ih c' h1 with h2 | h2
        · exact Or.inl (List.mem_cons_of_mem _ h2)
        · exact Or.inr h2

theorem priceInvariant_step (cart : List CartItem) (args : ManageOrderArgs)
    (h : priceInvariant cart) :
    priceInvariant (((handleManageOrder (some cart) args).1).getD cart) := by
  unfold handleManageOrder
  by_cases ha : args.action = "add"
  · simp only [ha, if_pos rfl, Option.getD_some]
    intro c' hc' p hp
    rcases cartAdd_mem cart args.itemName args.quantity
        ((PRICE_MAP.lookup args.itemName).getD args.price) args.notes c' hc' with
      hmem | ⟨hn, hpr⟩
    · exact h c' hmem p hp
    · rw [hpr]
      rw [hn] at hp
      rw [hp]
      rfl
  · by_cases hr : args.action = "remove"
    · simp only [ha, hr, if_neg, if_pos rfl, Option.getD_some, reduceIte]
      intro c' hc' p hp
      exact h c' (List.mem_of_mem_filter hc') p hp
    · simp only [ha, hr, Option.getD_some, reduceIte]
      exact h

theorem priceInvariant_applyOps (ops : List ManageOrderArgs)
    (cart : List CartItem) (h : priceInvariant cart) :
    priceInvariant (applyOps cart ops) := by
  induction ops generalizing cart with
  | nil => exact h
  | cons a as ih =>
    exact ih (((handleManageOrder (some cart) a).1).getD cart)
      (priceInvariant_step cart a h)

/-- C5: `manageOrder` `add` on an existing session uses `PRICE_MAP[name]`
when present, else the model price (with a price-map-miss warning); a
duplicate add replaces the existing item's quantity and price and replaces
notes only when the supplied notes are non-empty; otherwise a new item is
appended.  Consequently every cart item whose name is in the price map has
the map price. -/
theorem C5_manageOrder_add_price_authority :
    (∀ (cart : List CartItem) (args : ManageOrderArgs) (p : ℚ),
      args.action = "add" → PRICE_MAP.lookup args.itemName = some p →
      (handleManageOrder (some cart) args).1 =
        some (cartAdd cart args.itemName args.quantity p args.notes)) ∧
    (∀ (cart : List CartItem) (args : ManageOrderArgs),
      args.action = "add" → PRICE_MAP.lookup args.itemName = none →
      (handleManageOrder (some cart) args).1 =
        some (cartAdd cart args.itemName args.quantity args.price args.notes) ∧
      (handleManageOrder (some cart) args).2.2 = true) ∧
    (∀ (pre post : List CartItem) (c : CartItem) (name : String)
      (qty price : ℚ) (notes : String),
      c.itemName = name → (∀ c' ∈ pre, c'.itemName ≠ name) →
      cartAdd (pre ++ c :: post) name qty price notes =
        pre ++ ⟨name, qty, price, if notes = "" then c.notes else notes⟩ :: post) ∧
    (∀ (cart : List CartItem) (name : String) (qty price : ℚ) (notes : String),
      (∀ c ∈ cart, c.itemName ≠ name) →
      cartAdd cart name qty price notes = cart ++ [⟨name, qty, price, notes⟩]) ∧
    (∀ ops : List ManageOrderArgs, priceInvariant (applyOps [] ops)) := by
  refine ⟨?_, ?_, ?_, ?_, ?_⟩
  · intro cart args p ha hp
    unfold handleManageOrder
    simp [ha, hp]
  · intro cart args ha hp
    unfold handleManageOrder
    simp [ha, hp]
  · intro pre post c name qty price notes hname hpre
    induction pre with
    | nil =>
      simp only [List.nil_append, cartAdd, hname, if_true, eq_self_iff_true]
    | cons q qre ih =>
      have hq : q.itemName ≠ name := hpre q (List.mem_cons_self _ _)
      simp only [List.cons_append, cartAdd, if_neg hq, List.append_eq]
      rw [ih (fun c' hc' => hpre c' (List.mem_cons_of_mem _ hc'))]
  · intro cart name qty price notes hall
    induction cart with
    | nil => rfl
    | cons q rest ih =>
      have hq : q.itemName ≠ name := hall q (List.mem_cons_self _ _)
      simp only [cartAdd, if_neg hq, List.cons_append]
      rw [ih (fun c hc => hall c (List.mem_cons_of_mem _ hc))]
  · intro ops
    exact priceInvariant_applyOps ops []
      (fun c hc => absurd hc (List.not_mem_nil c))

/-- Witness for C5: price-map override (scenario S2) and duplicate add
(scenario S3) at concrete inputs. -/
theorem C5_manageOrder_witness :
    (handleManageOrder (some []) ⟨"add", "Masala Dosa", 2, 9.99, ""⟩).1 =
      some (cartAdd [] "Masala Dosa" 2 11.49 "") ∧
    cartAdd [⟨"Masala Dosa", 2, 11.49, ""⟩] "Masala Dosa" 3 11.49 "extra crispy" =
      [⟨"Masala Dosa", 3, 11.49, "extra crispy"⟩] ∧
    priceInvariant (applyOps [] [⟨"add", "Masala Dosa", 2, 9.99, ""⟩]) := by
  obtain ⟨h1, _, h3, _, h5⟩ := C5_manageOrder_add_price_authority
  refine ⟨h1 [] ⟨"add", "Masala Dosa", 2, 9.99, ""⟩ 11.49 rfl rfl, ?_, h5 _⟩
  have := h3 [] [] ⟨"Masala Dosa", 2, 11.49, ""⟩ "Masala Dosa" 3 11.49
    "extra crispy" rfl (by intro c' hc'; exact absurd hc' (List.not_mem_nil c'))
  simpa using this

/-- C10: a `manageOrder` call on an existing session whose `action` is
neither `"add"` nor `"remove"` leaves the cart completely unchanged yet
still returns the success token `Cart updated successfully.`. -/
theorem C10_manageOrder_unknown_action (cart : List CartItem)
    (args : ManageOrderArgs) (h1 : args.action ≠ "add")
    (h2 : args.action ≠ "remove") :
    handleManageOrder (some cart) args =
      (some cart, "Cart updated successfully.",
        (PRICE_MAP.lookup args.itemName).isNone) := by
  unfold handleManageOrder
  simp [h1, h2]

/-- Witness for C10 at `action = "update"`. -/
theorem C10_manageOrder_unknown_action_witness :
    handleManageOrder (some [⟨"Rasam", 1, 6.99, ""⟩])
        ⟨"update", "Masala Dosa", 1, 9.99, ""⟩ =
      (some [⟨"Rasam", 1, 6.99, ""⟩], "Cart updated successfully.", false) := by
  have h := C10_manageOrder_unknown_action [⟨"Rasam", 1, 6.99, ""⟩]
    ⟨"update", "Masala Dosa", 1, 9.99, ""⟩ (by decide) (by decide)
  rw [h]
  rfl

end OrderManager

namespace OrderManager

/-- Counterexample to C1: in an attempt where the customer upsert failed
(`custErr`) and the order-items batch insert failed (`itemsErr`) but the
order insert succeeded, the Order row is nevertheless persisted — both
errors are only logged by `handleCompleteOrder`. -/
theorem C1_counterexample :
    (completeOrderAttempt [⟨"Masala Dosa", 1, 11.49, ""⟩]
        ⟨false, some "d3adbe-ef01", false⟩).1.orderInserted = true ∧
    (completeOrderAttempt [⟨"Masala Dosa", 1, 11.49, ""⟩]
        ⟨false, some "d3adbe-ef01", false⟩).1.customerUpserted = false ∧
    (completeOrderAttempt [⟨"Masala Dosa", 1, 11.49, ""⟩]
        ⟨false, some "d3adbe-ef01", false⟩).1.itemsInserted = false ∧
    (handleCompleteOrder (some [⟨"Masala Dosa", 1, 11.49, ""⟩])
        [⟨false, some "d3adbe-ef01", false⟩]).2.2.orderId = some "d3adbe-ef01" := by
  exact ⟨rfl, rfl, rfl, rfl⟩

/-- C1 amended: within each attempt of the retry loop, the Order row is
persisted iff the order insert (step 3) itself succeeded in that attempt; a
customer-upsert failure (step 1) or an order-items batch failure (step 4)
in the same attempt is only logged and does not prevent the order row.
Across the retry loop, an order row is written iff some scheduled attempt's
order insert succeeds. -/
theorem C1_amended_order_persistence (cart : List CartItem) (env : AttemptEnv)
    (envs : List AttemptEnv) :
    (completeOrderAttempt cart env).1.orderInserted = env.orderId.isSome ∧
    (completeOrderAttempt cart env).1.customerUpserted = env.custOk ∧
    (completeOrderAttempt cart env).1.itemsInserted =
      (env.orderId.isSome && env.itemsOk) ∧
    ((withRetry cart envs).1.any (fun fx => fx.orderInserted)) =
      envs.any (fun e => e.orderId.isSome) := by
  refine ⟨?_, ?_, ?_, ?_⟩
  · cases h : env.orderId <;> simp [completeOrderAttempt, h]
  · cases h : env.orderId <;> simp [completeOrderAttempt, h]
  · cases h : env.orderId <;> simp [completeOrderAttempt, h]
  · induction envs with
    | nil => rfl
    | cons e es ih =>
      cases h : e.orderId <;>
        simp [withRetry, completeOrderAttempt, h, ih]

/-- Counterexample to C2: on the cart of one Masala Dosa at 11.49 and one
Mango Lassi at 6.49 (quantity 1 each), the persisted total is not 19.47 —
`round2(17.98 · 1.0825) = round2(19.46335) = 19.46`. -/
theorem C2_counterexample :
    ¬ (calcOrderTotal [⟨"Masala Dosa", 1, 11.49, ""⟩,
        ⟨"Mango Lassi", 1, 6.49, ""⟩] = 19.47) := by
  unfold calcOrderTotal cartSubtotal jsRound TAX_RATE
  simp only [List.foldl]
  have h : (⌊((0 : ℚ) + 11.49 * 1 + 6.49 * 1) * (1 + 0.0825) * 100 + 1 / 2⌋ : ℤ) = 1946 := by
    rw [Int.floor_eq_iff]
    norm_num
  rw [h]
  norm_num

/-- C2 amended: on that cart the persisted order total, as computed by the
`completeOrder` pipeline (`total = round2(subtotal · (1 + 0.0825))` with
half-up rounding at the cent), equals 19.46. -/
theorem C2_amended_order_total :
    calcOrderTotal [⟨"Masala Dosa", 1, 11.49, ""⟩, ⟨"Mango Lassi", 1, 6.49, ""⟩] =
      19.46 ∧
    (handleCompleteOrder
        (some [⟨"Masala Dosa", 1, 11.49, ""⟩, ⟨"Mango Lassi", 1, 6.49, ""⟩])
        [⟨true, some "a1b2c3d4e5", true⟩]).2.2.total = some 19.46 := by
  have hcalc : calcOrderTotal [⟨"Masala Dosa", 1, 11.49, ""⟩,
      ⟨"Mango Lassi", 1, 6.49, ""⟩] = 19.46 := by
    unfold calcOrderTotal cartSubtotal jsRound TAX_RATE
    simp only [List.foldl]
    have h : (⌊((0 : ℚ) + 11.49 * 1 + 6.49 * 1) * (1 + 0.0825) * 100 + 1 / 2⌋ : ℤ) = 1946 := by
      rw [Int.floor_eq_iff]
      norm_num
    rw [h]
    norm_num
  refine ⟨hcalc, ?_⟩
  have hpipe : (handleCompleteOrder
      (some [⟨"Masala Dosa", 1, 11.49, ""⟩, ⟨"Mango Lassi", 1, 6.49, ""⟩])
      [⟨true, some "a1b2c3d4e5", true⟩]).2.2.total =
      some (calcOrderTotal [⟨"Masala Dosa", 1, 11.49, ""⟩,
        ⟨"Mango Lassi", 1, 6.49, ""⟩]) := rfl
  rw [hpipe, hcalc]

end OrderManager

namespace TwilioStream

/-- Terminal persistence writes (`completeCallRecord`, `escalateCallRecord`,
`failCallRecord` in `supabaseClient.js`). -/
inductive TerminalWrite
  | completed
  | escalated
  | failed
deriving Repr, DecidableEq, BEq

/-- Lifecycle state of a `TwilioStream` (`twilioStream.js`): `isStarted`,
`isClosed`, `isTransfer`, and whether `callSid` was populated by `start`. -/
structure StreamState where
  isStarted  : Bool
  isClosed   : Bool
  isTransfer : Bool
  hasCallSid : Bool
deriving Repr, DecidableEq

def initialStream : StreamState := ⟨false, false, false, false⟩

/-- Embedding of `_handleClose(source)`: double-close guard; DB update only when `start`
was processed and `callSid` is available; `isTransfer` ⇒ nothing (the
escalation row was already written inside `executeTransfer`);
`source === 'ws_error'` ⇒ `failCallRecord`; otherwise
`completeCallRecord`. -/
def handleClose (st : StreamState) (source : String) :
    StreamState × Option TerminalWrite :=
  if st.isClosed then (st, none)
  else
    let st' := { st with isClosed := true }
    if st.isStarted && st.hasCallSid then
      if st.isTransfer then (st', none)
      else if source = "ws_error" then (st', some .failed)
      else (st', some .completed)
    else (st', none)

/-- Events wired in the `TwilioStream` constructor: the parsed `'start'`,
`'media'`, `'stop'` messages, plus the underlying WebSocket `'close'` and
`'error'` events. -/
inductive TwEvent
  | evStart
  | evMedia
  | evStop
  | evWsClose
  | evWsError
deriving Repr, DecidableEq

/-- One event dispatch: `_onStart` sets `isStarted` and the call SID;
`_onStop` calls `_handleClose('stop_event')`; the ws `'close'` handler calls
`_handleClose('ws_close')`; the ws `'error'` handler `_handleWsError` only
logs — it relies on the 'close' event that always follows and never passes
the `'ws_error'` source itself. -/
def twStep (st : StreamState) : TwEvent → StreamState × Option TerminalWrite
  | .evStart => ({ st with isStarted := true, hasCallSid := true }, none)
  | .evMedia => (st, none)
  | .evStop => handleClose st "stop_event"
  | .evWsClose => handleClose st "ws_close"
  | .evWsError => (st, none)

/-- Run a WebSocket event trace, collecting the terminal writes in order. -/
def twRun (st : StreamState) : List TwEvent → StreamState × List TerminalWrite
  | [] => (st, [])
  | e :: es =>
    match twStep st e with
    | (st', none) => twRun st' es
    | (st', some w) =>
        let r := twRun st' es
        (r.1, w :: r.2)

theorem twStep_not_failed (st : StreamState) (e : TwEvent) :
    (twStep st e).2 ≠ some TerminalWrite.failed := by
  cases e <;> simp only [twStep] <;> try simp
  all_goals (unfold handleClose; split_ifs <;> simp_all)

/-- C3 evaluated at the failing input, plus the unreachability of the
`failed` terminal: a session whose WebSocket terminates via an `error`
event (followed, as always, by `close`) receives the `completed` terminal
status, and no event trace whatsoever produces a `failed` write — the
`'ws_error'` source string is never passed to `_handleClose`. -/
theorem C3_ws_error_terminal_status :
    (twRun initialStream [.evStart, .evWsError, .evWsClose]).2 =
      [TerminalWrite.completed] ∧
    ∀ (st : StreamState) (evs : List TwEvent),
      ((twRun st evs).2.contains TerminalWrite.failed) = false := by
  refine ⟨rfl, ?_⟩
  intro st evs
  induction evs generalizing st with
  | nil => rfl
  | cons e es ih =>
    rcases h : twStep st e with ⟨st', w⟩
    cases w with
    | none => simp [twRun, h, ih]
    | some w =>
      have hw : w ≠ TerminalWrite.failed := by
        intro hcontra
        exact twStep_not_failed st e (by rw [h, hcontra])
      have hb : (TerminalWrite.failed == w) = false := by
        cases w
        · decide
        · decide
        · exact absurd rfl hw
      simp [twRun, h, ih, List.contains, hb]

end TwilioStream

namespace GeminiSession

/-- The `TRANSFER_PHRASE` constant in `geminiSession.js`. -/
def TRANSFER_PHRASE : String := "TRANSFER_TO_HUMAN"

/-- Whether `needle` occurs at the start of `hay`. -/
def leadsWith : List Char → List Char → Bool
  | [], _ => true
  | _ :: _, [] => false
  | a :: as, b :: bs => a == b && leadsWith as bs

/-- Whether `needle` occurs somewhere in `hay` (JavaScript `String.includes`). -/
def hasSub (needle : List Char) : List Char → Bool
  | [] => leadsWith needle []
  | b :: bs => leadsWith needle (b :: bs) || hasSub needle bs

/-- JavaScript `hay.includes(needle)`. -/
def stringIncludes (hay needle : String) : Bool := hasSub needle.data hay.data

/-- The `GeminiSession` fields touched by `_handleMessage`
(`geminiSession.js`): `wasInterrupted`, `agentSpeaking`,
`transferTriggered`, and the persistent `outputTranscript` accumulator
(Red Team #9 — never reset mid-session). -/
structure GSState where
  wasInterrupted    : Bool
  agentSpeaking     : Bool
  transferTriggered : Bool
  outputTranscript  : String
deriving Repr, DecidableEq

def initialGS : GSState := ⟨false, false, false, ""⟩

/-- A Gemini server message restricted to the fields `_handleMessage`
inspects for lifecycle flags: `serverContent.interrupted`, presence of
audio parts (`modelTurn.parts[*].inlineData.data`),
`outputTranscription.text` (empty string when absent), and
`turnComplete`. -/
structure GMsg where
  interrupted   : Bool
  hasAudio      : Bool
  transcription : String
  turnComplete  : Bool
deriving Repr, DecidableEq

/-- Embedding of `_handleMessage(msg)`: on `interrupted`, set `wasInterrupted`, clear
`agentSpeaking`, and return early.  Otherwise: audio parts latch
`agentSpeaking`; the transcription is appended to the persistent
transcript; on `turnComplete`, clear `agentSpeaking` and — when
`transferTriggered` is still false and the accumulated transcript contains
`TRANSFER_TO_HUMAN` — latch `transferTriggered` and invoke
`onTransferRequested` (the second component reports that invocation). -/
def gsStep (s : GSState) (m : GMsg) : GSState × Bool :=
  if m.interrupted then
    ({ s with wasInterrupted := true, agentSpeaking := false }, false)
  else
    let s1 := if m.hasAudio then { s with agentSpeaking := true } else s
    let s2 := { s1 with outputTranscript := s1.outputTranscript ++ m.transcription }
    if m.turnComplete then
      let s3 := { s2 with agentSpeaking := false }
      if !s3.transferTriggered && stringIncludes s3.outputTranscript TRANSFER_PHRASE then
        ({ s3 with transferTriggered := true }, true)
      else (s3, false)
    else (s2, false)

/-- Process a list of server messages, counting `onTransferRequested`
invocations. -/
def gsRun (s : GSState) : List GMsg → GSState × Nat
  | [] => (s, 0)
  | m :: ms =>
    match gsStep s m with
    | (s', fired) =>
      let r := gsRun s' ms
      (r.1, (if fired then 1 else 0) + r.2)

theorem gsStep_triggered_mono (s : GSState) (m : GMsg)
    (h : s.transferTriggered = true) :
    (gsStep s m).1.transferTriggered = true ∧ (gsStep s m).2 = false := by
  unfold gsStep
  by_cases hi : m.interrupted
  · simp [hi, h]
  · by_cases ht : m.turnComplete
    · by_cases ha : m.hasAudio <;> simp [hi, ht, ha, h]
    · by_cases ha : m.hasAudio <;> simp [hi, ht, ha, h]

theorem gsRun_triggered (s : GSState) (ms : List GMsg)
    (h : s.transferTriggered = true) :
    (gsRun s ms).1.transferTriggered = true ∧ (gsRun s ms).2 = 0 := by
  induction ms generalizing s with
  | nil => exact ⟨h, rfl⟩
  | cons m ms ih =>
    obtain ⟨h1, h2⟩ := gsStep_triggered_mono s m h
    rcases hstep : gsStep s m with ⟨s', fired⟩
    rw [hstep] at h1 h2
    obtain ⟨ih1, ih2⟩ := ih s' h1
    simp only [gsRun, hstep, ih1, ih2, h2]
    exact ⟨trivial, rfl⟩

theorem gsStep_fire_sets (s : GSState) (m : GMsg)
    (h : (gsStep s m).2 = true) :
    (gsStep s m).1.transferTriggered = true := by
  unfold gsStep at h ⊢
  by_cases hi : m.interrupted
  · simp [hi] at h
  · by_cases ht : m.turnComplete
    · by_cases ha : m.hasAudio <;>
        (simp only [hi, ht, ha] at h ⊢; split_ifs at h ⊢ <;> simp_all)
    · by_cases ha : m.hasAudio <;> simp [hi, ht, ha] at h

/-- C7: for every session state and every sequence of model-leg messages,
the transfer action (`onTransferRequested` / `executeTransfer`) fires at
most once, the `transferTriggered` flag never resets once latched, and from
a state where it is already latched no further transfer ever fires — even
when `TRANSFER_TO_HUMAN` stays in the accumulated transcript across many
`turnComplete` events. -/
theorem C7_transfer_at_most_once (s : GSState) (ms : List GMsg) :
    (gsRun s ms).2 ≤ 1 ∧
    (s.transferTriggered = true →
      (gsRun s ms).2 = 0 ∧ (gsRun s ms).1.transferTriggered = true) := by
  constructor
  · induction ms generalizing s with
    | nil => simp [gsRun]
    | cons m ms ih =>
      rcases hstep : gsStep s m with ⟨s', fired⟩
      cases fired with
      | false => simpa [gsRun, hstep] using ih s'
      | true =>
        have hflag : s'.transferTriggered = true := by
          have h := gsStep_fire_sets s m (by rw [hstep])
          rw [hstep] at h
          exact h
        obtain ⟨_, hz⟩ := gsRun_triggered s' ms hflag
        simp [gsRun, hstep, hz]
  · intro h
    obtain ⟨h1, h2⟩ := gsRun_triggered s ms h
    exact ⟨h2, h1⟩

/-- Witness for C7: the transfer phrase enters the transcript and two
`turnComplete` events follow; the action fires exactly once overall, and
from an already-latched state it never fires. -/
theorem C7_transfer_at_most_once_witness :
    (gsRun initialGS
      [⟨false, false, "sure. TRANSFER_TO_HUMAN", true⟩,
       ⟨false, false, "", true⟩]).2 ≤ 1 ∧
    (gsRun ⟨false, false, true, "TRANSFER_TO_HUMAN"⟩
      [⟨false, false, "", true⟩]).2 = 0 := by
  refine ⟨(C7_transfer_at_most_once initialGS _).1, ?_⟩
  exact ((C7_transfer_at_most_once ⟨false, false, true, "TRANSFER_TO_HUMAN"⟩ _).2 rfl).1

end GeminiSession

namespace GeminiSession

/-- Messages the session event loop may fully process while an outer
tool-call batch is suspended at an `await` inside `_handleToolCalls`
(the `completeOrder` handler awaits Supabase): a barge-in `interrupted`
message, a `turnComplete` message, a second tool-call batch whose handlers
are all synchronous (it runs to completion, including its own send-or-skip
decision and the trailing `this.wasInterrupted = false` reset), or any
other message. -/
inductive WindowEvent
  | interruptedMsg
  | turnCompleteMsg
  | syncBatchMsg
  | otherMsg
deriving Repr, DecidableEq

/-- Effect of one such message on the `wasInterrupted` flag:
`_handleMessage` sets it on `interrupted`; a completed `_handleToolCalls`
resets it to `false`; `turnComplete` and all other messages leave it
alone. -/
def stepInterrupted (b : Bool) : WindowEvent → Bool
  | .interruptedMsg => true
  | .syncBatchMsg => false
  | .turnCompleteMsg => b
  | .otherMsg => b

/-- The flag value after the in-flight window processes `ws`. -/
def interruptedAfter (b : Bool) (ws : List WindowEvent) : Bool :=
  ws.foldl stepInterrupted b

/-- The send decision for the outer batch at the end of `_handleToolCalls`:
`if (sessionSnapshot && responses.length > 0 && !this.wasInterrupted)
{ ... sendToolResponse ... }`. -/
def outerBatchSends (sessionPresent hasResponses b : Bool)
    (ws : List WindowEvent) : Bool :=
  sessionPresent && hasResponses && !(interruptedAfter b ws)

/-- Counterexample to C6: an `interrupted` message is received inside the
batch's in-flight window, yet `sendToolResponse` still fires for that
batch, because a second tool-call batch completed later in the window and
its epilogue reset `wasInterrupted` to `false`. -/
theorem C6_counterexample :
    WindowEvent.interruptedMsg ∈
      [WindowEvent.interruptedMsg, WindowEvent.syncBatchMsg] ∧
    outerBatchSends true true false
      [WindowEvent.interruptedMsg, WindowEvent.syncBatchMsg] = true := by
  exact ⟨List.mem_cons_self _ _, rfl⟩

theorem interruptedAfter_stays (r : List WindowEvent)
    (h : WindowEvent.syncBatchMsg ∉ r) : interruptedAfter true r = true := by
  induction r with
  | nil => rfl
  | cons e es ih =>
    have he : e ≠ WindowEvent.syncBatchMsg := fun hc => h (hc ▸ List.mem_cons_self _ _)
    have hes : WindowEvent.syncBatchMsg ∉ es := fun hc => h (List.mem_cons_of_mem _ hc)
    cases e with
    | interruptedMsg => exact ih hes
    | turnCompleteMsg => exact ih hes
    | syncBatchMsg => exact absurd rfl he
    | otherMsg => exact ih hes

/-- C6 amended: `sendToolResponse` is skipped exactly when `wasInterrupted`
is set at the send point; consequently, if an `interrupted` message is
received inside the batch's in-flight window and no other tool-call batch
completes after it within that window (batch completion resets the flag),
then `sendToolResponse` is not called for the batch — in particular it
never fires while the most recently processed model-leg message carried
`interrupted = true`. -/
theorem C6_amended_interrupted_skips_send (sp hr b : Bool)
    (l r : List WindowEvent) (h : WindowEvent.syncBatchMsg ∉ r) :
    outerBatchSends sp hr b (l ++ WindowEvent.interruptedMsg :: r) = false ∧
    interruptedAfter b (l ++ WindowEvent.interruptedMsg :: r) = true := by
  have hafter : interruptedAfter b (l ++ WindowEvent.interruptedMsg :: r) = true := by
    unfold interruptedAfter
    rw [List.foldl_append]
    show interruptedAfter (stepInterrupted (interruptedAfter b l) .interruptedMsg) r = true
    exact interruptedAfter_stays r h
  refine ⟨?_, hafter⟩
  unfold outerBatchSends
  rw [hafter]
  simp

/-- Witness for C6 amended: outer batch in flight, barge-in, then a
`turnComplete`; the send is skipped. -/
theorem C6_amended_interrupted_skips_send_witness :
    outerBatchSends true true false
      ([] ++ WindowEvent.interruptedMsg :: [WindowEvent.turnCompleteMsg]) = false := by
  exact (C6_amended_interrupted_skips_send true true false []
    [WindowEvent.turnCompleteMsg] (by decide)).1

end GeminiSession

namespace GeminiSession

/-- JavaScript values as far as the tool-call router inspects them
(`typeof`, `Number.isInteger`, null/array checks). -/
inductive JVal
  | vStr (s : String)
  | vNum (q : ℚ) (isInt : Bool)
  | vBool (b : Bool)
  | vObj
  | vArr
  | vNull
deriving Repr, DecidableEq

/-- A tool-call `args` object: field name to value. -/
abbrev JArgs := List (String × JVal)

/-- The `Type` enum values used by `toolDefinitions.js`. -/
inductive SchemaType
  | tString
  | tNumber
  | tInteger
  | tObject
deriving Repr, DecidableEq

/-- One function declaration: `parameters.properties` and
`parameters.required`. -/
structure ToolDecl where
  name     : String
  props    : List (String × SchemaType)
  required : List String
deriving Repr, DecidableEq

/-- Declaration `manageOrderTool` from `toolDefinitions.js` (identical in both
variants of that file). -/
def manageOrderTool : ToolDecl :=
  ⟨"manageOrder",
   [("action", .tString), ("itemName", .tString), ("quantity", .tInteger),
    ("price", .tNumber), ("notes", .tString)],
   ["action", "itemName", "quantity", "price"]⟩

/-- Declaration `collectCustomerDetailsTool` (three-tool variant of
`toolDefinitions.js`). -/
def collectCustomerDetailsTool : ToolDecl :=
  ⟨"collectCustomerDetails",
   [("customerName", .tString), ("phoneNumber", .tString)],
   ["customerName", "phoneNumber"]⟩

/-- Declaration `completeOrderTool` from `toolDefinitions.js`. -/
def completeOrderTool : ToolDecl :=
  ⟨"completeOrder",
   [("customerName", .tString), ("phoneNumber", .tString)],
   ["customerName", "phoneNumber"]⟩

/-- Schema index `buildToolSchemaIndex()`: the declarations the session validates
against. -/
def toolDecls : List ToolDecl :=
  [manageOrderTool, collectCustomerDetailsTool, completeOrderTool]

/-- The `typeof`-based checks of `_logAndValidateToolCall`: STRING /
NUMBER / INTEGER (`Number.isInteger`) / OBJECT (non-null, non-array). -/
def typeMatches : SchemaType → JVal → Bool
  | .tString, .vStr _ => true
  | .tNumber, .vNum _ _ => true
  | .tInteger, .vNum _ isInt => isInt
  | .tObject, .vObj => true
  | _, _ => false

/-- Embedding of `_logAndValidateToolCall(fc)`: produces only `console.warn` lines — no
schema found, args not an object, missing required fields, unexpected
fields, type mismatches.  It never throws and it does not alter the
call. -/
def logAndValidateToolCall (name : String) (args : Option JArgs) : List String :=
  match toolDecls.find? (fun d => d.name == name) with
  | none => ["no tool schema found for " ++ name]
  | some decl =>
    match args with
    | none => ["args is not an object"]
    | some as =>
      ((decl.required.filter (fun k => (as.lookup k).isNone)).map
        (fun k => "missing required arg " ++ k)) ++
      as.flatMap (fun kv =>
        match decl.props.lookup kv.1 with
        | none => ["unexpected arg " ++ kv.1]
        | some t => if typeMatches t kv.2 then [] else ["type mismatch for arg " ++ kv.1])

/-- The claim's notion of invalid arguments: a required field missing, or a
declared field whose type does not match the schema. -/
def argsInvalid (name : String) (args : Option JArgs) : Bool :=
  match toolDecls.find? (fun d => d.name == name), args with
  | some decl, some as =>
      decl.required.any (fun k => (as.lookup k).isNone) ||
      as.any (fun kv =>
        match decl.props.lookup kv.1 with
        | some t => !typeMatches t kv.2
        | none => false)
  | _, _ => false

/-- The user-safe error payload of the router's `catch` block. -/
def APOLOGY : String := "Sorry, there was a brief error. Please try again."

/-- Dispatch of one function call inside the `try` of `_handleToolCalls`.
`searchMenu` and `collectCustomerDetails` are destructured from
`orderManager.js`, which does not export them, so invoking either throws a
`TypeError` (modeled as `.error`); `manageOrder` and `completeOrder` run
the handlers modeled above (`handleCompleteOrder` catches internally and
never throws); unknown names return the safe fallback string.  JavaScript
would place ill-typed `manageOrder` argument values in the cart unchanged;
the extraction below substitutes defaults for non-string / non-number
fields, which leaves every result token identical to the source's. -/
def dispatchToolCall (sess : Option (List OrderManager.CartItem))
    (envs : List OrderManager.AttemptEnv) (name : String) (args : Option JArgs) :
    Except String (Option (List OrderManager.CartItem) × String) :=
  if name = "searchMenu" then
    .error "searchMenu is not a function"
  else if name = "manageOrder" then
    let as := args.getD []
    let getS := fun (k : String) =>
      match as.lookup k with
      | some (.vStr s) => s
      | _ => ""
    let getQ := fun (k : String) =>
      match as.lookup k with
      | some (.vNum q _) => q
      | _ => 0
    let r := OrderManager.handleManageOrder sess
      ⟨getS "action", getS "itemName", getQ "quantity", getQ "price", getS "notes"⟩
    .ok (r.1, r.2.1)
  else if name = "collectCustomerDetails" then
    .error "collectCustomerDetails is not a function"
  else if name = "completeOrder" then
    let r := OrderManager.handleCompleteOrder sess envs
    .ok (r.1, r.2.2.result)
  else
    .ok (sess, "Tool \"" ++ name ++ "\" is not available.")

/-- The per-call body of `_handleToolCalls`: log-and-validate (warnings
only), dispatch, and catch any throw into the user-safe apology payload. -/
def routeToolCall (sess : Option (List OrderManager.CartItem))
    (envs : List OrderManager.AttemptEnv) (name : String) (args : Option JArgs) :
    Option (List OrderManager.CartItem) × String :=
  let _warnings := logAndValidateToolCall name args
  match dispatchToolCall sess envs name args with
  | .ok r => r
  | .error _ => (sess, APOLOGY)

/-- The batch loop of `_handleToolCalls`: every function call in the batch
— valid or not — produces exactly one response entry. -/
def runToolBatch (sess : Option (List OrderManager.CartItem))
    (envs : List OrderManager.AttemptEnv) :
    List (String × Option JArgs) → Option (List OrderManager.CartItem) × List String
  | [] => (sess, [])
  | (name, args) :: rest =>
    let r := routeToolCall sess envs name args
    let rr := runToolBatch r.1 envs rest
    (rr.1, r.2 :: rr.2)

theorem head_of_append (a n : String) (c : Char) (h : a.data.head? = some c) :
    (a ++ n).data.head? = some c := by
  rw [String.data_append]
  cases hd : a.data with
  | nil => rw [hd] at h; exact absurd h (by simp)
  | cons x xs => rw [hd] at h; simpa using h

theorem ne_of_head (s t : String) (c d : Char) (hs : s.data.head? = some c)
    (ht : t.data.head? = some d) (hcd : c ≠ d) : s ≠ t := by
  intro he
  rw [he] at hs
  rw [hs] at ht
  exact hcd (Option.some.inj ht)

theorem manageOrder_result_ne_apology (sess : Option (List OrderManager.CartItem))
    (args : OrderManager.ManageOrderArgs) :
    (OrderManager.handleManageOrder sess args).2.1 ≠ APOLOGY := by
  cases sess with
  | none =>
    have h : (OrderManager.handleManageOrder none args).2.1 =
      "Error: session not found" := rfl
    rw [h]; decide
  | some cart =>
    have h : (OrderManager.handleManageOrder (some cart) args).2.1 =
      "Cart updated successfully." := rfl
    rw [h]; decide

theorem completeOrder_result_ne_apology
    (sess : Option (List OrderManager.CartItem))
    (envs : List OrderManager.AttemptEnv) :
    (OrderManager.handleCompleteOrder sess envs).2.2.result ≠ APOLOGY := by
  cases sess with
  | none =>
    have h : (OrderManager.handleCompleteOrder none envs).2.2.result =
      "Error: session not found" := rfl
    rw [h]; decide
  | some cart =>
    simp only [OrderManager.handleCompleteOrder]
    by_cases hc : cart.length = 0
    · rw [if_pos hc]
      show "Error: cart is empty" ≠ APOLOGY
      decide
    · rw [if_neg hc]
      rcases hw : OrderManager.withRetry cart envs with ⟨fxs, res⟩
      cases res with
      | none =>
        simp only [hw]
        show OrderManager.RETRY_APOLOGY ≠ APOLOGY
        decide
      | some r =>
        simp only [hw]
        show "Order confirmed successfully. Order number is " ++ r.orderNumber ++ "." ≠ APOLOGY
        exact ne_of_head _ _ 'O' 'S'
          (head_of_append _ _ _ (head_of_append _ _ _ rfl)) rfl (by decide)

theorem unknown_tool_result_ne_apology (name : String) :
    ("Tool \"" ++ name ++ "\" is not available.") ≠ APOLOGY :=
  ne_of_head _ _ 'T' 'S' (head_of_append _ _ _ (head_of_append _ _ _ rfl)) rfl (by decide)

end GeminiSession

namespace GeminiSession

/-- Counterexample to C4: a `completeOrder` invocation missing the required
`phoneNumber` field is invalid by the declared schema, yet the router does
not return the `{result: "Sorry, there was a brief error. Please try
again."}` payload — validation only logs a warning and the call is
dispatched to the handler as-is (here returning the empty-cart error
instead). -/
theorem C4_counterexample :
    argsInvalid "completeOrder" (some [("customerName", JVal.vStr "Ada")]) = true ∧
    routeToolCall (some []) [] "completeOrder"
        (some [("customerName", JVal.vStr "Ada")]) =
      (some [], "Error: cart is empty") ∧
    "Error: cart is empty" ≠ APOLOGY := by
  exact ⟨rfl, rfl, by decide⟩

theorem dispatch_ok_ne_apology (sess : Option (List OrderManager.CartItem))
    (envs : List OrderManager.AttemptEnv) (name : String) (args : Option JArgs)
    (r : Option (List OrderManager.CartItem) × String)
    (hd : dispatchToolCall sess envs name args = .ok r) : r.2 ≠ APOLOGY := by
  unfold dispatchToolCall at hd
  split_ifs at hd
  · simp only [Except.ok.injEq] at hd
    subst hd
    exact manageOrder_result_ne_apology _ _
  · simp only [Except.ok.injEq] at hd
    subst hd
    exact completeOrder_result_ne_apology _ _
  · simp only [Except.ok.injEq] at hd
    subst hd
    exact unknown_tool_result_ne_apology _

/-- C4 amended: argument validation at the router boundary only logs
warnings; every tool invocation in a batch — valid or not — yields exactly
one structured response, so the router never raises into the session event
loop; and the `{result: "Sorry, there was a brief error. Please try
again."}` payload is produced precisely when the dispatched handler itself
throws (as the undefined `searchMenu` / `collectCustomerDetails` imports
do), not when the arguments are invalid. -/
theorem C4_amended_router_validation :
    (∀ sess envs calls, (runToolBatch sess envs calls).2.length = calls.length) ∧
    (∀ sess envs name args,
      ((routeToolCall sess envs name args).2 = APOLOGY ↔
        ∃ e, dispatchToolCall sess envs name args = .error e)) := by
  constructor
  · intro sess envs calls
    induction calls generalizing sess with
    | nil => rfl
    | cons c rest ih =>
      rcases c with ⟨name, args⟩
      simp [runToolBatch, ih]
  · intro sess envs name args
    unfold routeToolCall
    rcases hd : dispatchToolCall sess envs name args with e | r
    · simp [hd]
    · have hne := dispatch_ok_ne_apology sess envs name args r hd
      simp [hd, hne]

/-- Witness for C4 amended: a two-call batch (one throwing `searchMenu`,
one unknown tool) produces exactly two responses, and for `searchMenu` the
apology payload corresponds exactly to the handler throw. -/
theorem C4_amended_router_validation_witness :
    (runToolBatch (some []) [] [("searchMenu", none), ("bogusTool", none)]).2.length = 2 ∧
    ((routeToolCall (some []) [] "searchMenu" none).2 = APOLOGY ↔
      ∃ e, dispatchToolCall (some []) [] "searchMenu" none = .error e) := by
  have h1 := C4_amended_router_validation.1 (some [])
    ([] : List OrderManager.AttemptEnv)
    ([("searchMenu", none), ("bogusTool", none)])
  exact ⟨by simpa using h1,
    C4_amended_router_validation.2 (some []) [] "searchMenu" none⟩

end GeminiSession

/-- Witness for C1 amended at a concrete attempt whose customer upsert and
items insert both fail while the order insert succeeds. -/
theorem C1_amended_order_persistence_witness :
    (OrderManager.completeOrderAttempt [⟨"Rasam", 1, 6.99, ""⟩]
        ⟨false, some "feedc0", false⟩).1.orderInserted = true ∧
    ((OrderManager.withRetry [⟨"Rasam", 1, 6.99, ""⟩]
        [⟨false, some "feedc0", false⟩]).1.any (fun fx => fx.orderInserted)) = true := by
  obtain ⟨h1, _, _, h4⟩ := OrderManager.C1_amended_order_persistence
    ([⟨"Rasam", 1, 6.99, ""⟩]) (⟨false, some "feedc0", false⟩)
    ([⟨false, some "feedc0", false⟩])
  exact ⟨by simpa using h1, by simpa using h4⟩
